import Mathlib

/-!
Verification development for the web-page test-generation backend.

The Python sources are shallowly embedded as executable Lean definitions:

* `pytestParse` embeds the execution-report parsing portion of
  `TestVerifier._run_pytest` (backend/agent/verifier.py, lines 158-216).
* `verifyAndRefine` embeds the self-correction loop
  `CodeGenerator.verify_and_refine` (backend/agent/generator.py, lines 147-198).
* `llmGenerate` and `llmGenerateJson` embed `LLMClient.generate` and
  `LLMClient.generate_json` (backend/agent/llm_client.py).
* `copilotGenerateJson` embeds the extraction pipeline of
  `CopilotClient.generate_json` (backend/agent/llm_client.py, lines 193-284).
* `AgentSt`, `handle_explore`, `handle_design`, `handle_generate` and
  `AgentSt.reset` embed the session orchestrator (backend/main.py) together
  with `MetricsTracker.reset` (backend/utils/metrics.py).

Python strings are modeled as `List Char`; regular-expression searches used by
the source are expanded into explicit, executable scanning functions with the
same semantics on the ASCII texts the runner produces.  External collaborators
(the LLM provider, the browser, the subprocess runner, websocket sends and the
observability sinks) are modeled as explicit outcome parameters; websocket
progress sends and LangFuse calls are observational and carry no state.
-/

/-! ## Python string primitives -/

/-- ASCII decimal digit, the characters matched by the pattern d in the
source regexes on runner output. -/
def isAsciiDigit (c : Char) : Bool := '0' ≤ c && c ≤ '9'

/-- Whitespace characters recognized by Python regex class s and by
str.strip on the ASCII runner output. -/
def isPySpace (c : Char) : Bool :=
  c == ' ' || c == '\t' || c == '\n' || c == '\r' || c == '\x0b' || c == '\x0c'

/-- Word characters for regex word boundaries (ASCII model of regex class w). -/
def isWordChar (c : Char) : Bool :=
  ('a' ≤ c && c ≤ 'z') || ('A' ≤ c && c ≤ 'Z') || isAsciiDigit c || c == '_'

/-- ASCII lowercasing, as performed by str.lower and by case-insensitive
regex matching on ASCII text. -/
def lowerChar (c : Char) : Char :=
  if 'A' ≤ c && c ≤ 'Z' then Char.ofNat (c.toNat + 32) else c

/-- Case-insensitive character comparison (re.I on ASCII text). -/
def charEqCI (a b : Char) : Bool := lowerChar a == lowerChar b

/-- Lowercase a whole string, as str.lower does on ASCII text. -/
def lowerL (l : List Char) : List Char := l.map lowerChar

/-- Case-insensitive prefix test. -/
def isPrefixCI : List Char → List Char → Bool
  | [], _ => true
  | _ :: _, [] => false
  | a :: as, b :: bs => charEqCI a b && isPrefixCI as bs

/-- Numeric value of a digit run, as int() applied to a regex group. -/
def natOfDigits (ds : List Char) : Nat :=
  ds.foldl (fun acc c => acc * 10 + (c.toNat - 48)) 0

/-- Line-terminator characters recognized by Python str.splitlines. -/
def isLineBreak (c : Char) : Bool :=
  c == '\n' || c == '\r' || c == '\x0b' || c == '\x0c' ||
  c == '\x1c' || c == '\x1d' || c == '\x1e' || c == '\x85' ||
  c == '\u2028' || c == '\u2029'

/-- Worker for `pySplitlines`: accumulates the current line (reversed). -/
def pySplitlinesAux : List Char → List Char → List (List Char)
  | acc, [] => [acc.reverse]
  | acc, [c] => if isLineBreak c then [acc.reverse] else [(c :: acc).reverse]
  | acc, c1 :: c2 :: rest =>
    if c1 == '\r' && c2 == '\n' then
      acc.reverse :: (match rest with
        | [] => []
        | d :: ds => pySplitlinesAux [] (d :: ds))
    else if isLineBreak c1 then
      acc.reverse :: pySplitlinesAux [] (c2 :: rest)
    else
      pySplitlinesAux (c1 :: acc) (c2 :: rest)

/-- Python str.splitlines: split on line terminators, no trailing empty line. -/
def pySplitlines (l : List Char) : List (List Char) :=
  match l with
  | [] => []
  | c :: rest => pySplitlinesAux [] (c :: rest)

/-- Python str.rstrip with no argument (trailing whitespace removed). -/
def pyRstrip (l : List Char) : List Char := (l.reverse.dropWhile isPySpace).reverse

/-- Python str.strip with no argument (whitespace removed on both ends). -/
def pyStripL (l : List Char) : List Char :=
  ((l.dropWhile isPySpace).reverse.dropWhile isPySpace).reverse

/-! ## Regex scans used by TestVerifier._run_pytest -/

/-- Try to match the regex piece digits-then-whitespace-then-keyword
(case-insensitive) at the head of `l`, returning the captured number.
Both runs are matched greedily; no backtracking can succeed where the
greedy match fails because a digit is not whitespace and whitespace does
not start the keyword. -/
def matchNumKwAt (kw l : List Char) : Option Nat :=
  let ds := l.takeWhile isAsciiDigit
  if ds.isEmpty then none
  else
    let r1 := l.drop ds.length
    let ws := r1.takeWhile isPySpace
    if ws.isEmpty then none
    else if isPrefixCI kw (r1.drop ws.length) then some (natOfDigits ds) else none

/-- re.search for digits-whitespace-keyword anywhere in the text, leftmost
match first, returning the captured count.  Used for the patterns
"number passed", "number failed" and "number error" of the source (the
optional trailing s of the error pattern affects neither whether a match
exists nor the captured group). -/
def searchNumKw (kw : List Char) : List Char → Option Nat
  | [] => none
  | c :: rest =>
    match matchNumKwAt kw (c :: rest) with
    | some n => some n
    | none => searchNumKw kw rest

/-- Does keyword `w` occur at the head of `l` as a whole regex word, with
`prev` the character just before this position (none at text start)? -/
def wordAtHere (w : List Char) (prev : Option Char) (l : List Char) : Bool :=
  (match prev with | none => true | some c => !isWordChar c) &&
  isPrefixCI w l &&
  (match l.drop w.length with | [] => true | c :: _ => !isWordChar c)

/-- Worker for `searchWordCI`, tracking the previous character for the
left word boundary. -/
def searchWordAux (w : List Char) (prev : Option Char) (l : List Char) : Bool :=
  wordAtHere w prev l ||
  (match l with
   | [] => false
   | c :: rest => searchWordAux w (some c) rest)

/-- re.search for a word-bounded keyword, case-insensitive: the pattern
backslash-b keyword backslash-b under re.I. -/
def searchWordCI (w line : List Char) : Bool := searchWordAux w none line

def kwPassedL : List Char := "passed".toList
def kwFailedL : List Char := "failed".toList
def kwErrorL : List Char := "error".toList

/-- The per-test marker pattern of the source: a word-bounded PASSED, FAILED
or ERROR, case-insensitive. -/
def testMarker (l : List Char) : Bool :=
  searchWordCI kwPassedL l || searchWordCI kwFailedL l || searchWordCI kwErrorL l

/-- Match the regex piece "in, optional whitespace, one or more digits or
dots, then s" (case-insensitive) at the head of `l`, returning the rest of
the line after the match.  Greedy runs need no backtracking here: a
whitespace character is not a digit or dot, and a digit or dot is not s. -/
def timeMatchAt (l : List Char) : Option (List Char) :=
  match l with
  | c1 :: c2 :: rest =>
    if charEqCI c1 'i' && charEqCI c2 'n' then
      let ws := rest.takeWhile isPySpace
      let r2 := rest.drop ws.length
      let dd := r2.takeWhile (fun c => isAsciiDigit c || c == '.')
      if dd.isEmpty then none
      else
        match r2.drop dd.length with
        | s :: r3 => if charEqCI s 's' then some r3 else none
        | [] => none
    else none
  | _ => none

/-- Is there a position where the elapsed-time piece matches, followed
somewhere later by an equals sign (the trailing run of the summary regex)? -/
def timeThenEq (l : List Char) : Bool :=
  (match timeMatchAt l with
   | some rem => rem.contains '='
   | none => false) ||
  (match l with
   | [] => false
   | _ :: rest => timeThenEq rest)

/-- The alternation group of the summary regex.  The piece error-optional-s
with a closing word boundary matches exactly the words error and errors. -/
def summaryKws : List (List Char) :=
  ["passed", "failed", "error", "errors", "skipped", "xfailed"].map String.toList

/-- If one of the summary keywords occurs word-bounded at the head of `l`,
return the rest of the line after it. -/
def kwAtAux : List (List Char) → Option Char → List Char → Option (List Char)
  | [], _, _ => none
  | k :: ks, prev, l =>
    if wordAtHere k prev l then some (l.drop k.length) else kwAtAux ks prev l

/-- Scan for a word-bounded summary keyword followed (anywhere later) by the
elapsed-time piece and a trailing equals sign. -/
def kwThenTime (prev : Option Char) (l : List Char) : Bool :=
  (match kwAtAux summaryKws prev l with
   | some rem => timeThenEq rem
   | none => false) ||
  (match l with
   | [] => false
   | c :: rest => kwThenTime (some c) rest)

/-- The summary-line pattern of the source: one or more equals signs, then a
word-bounded result keyword, then "in" with an elapsed time in seconds, then
more equals signs, searched anywhere in the line (re.search semantics,
case-insensitive; the dot-star pieces make only the relative order of the
parts significant). -/
def summaryMatch : List Char → Bool
  | [] => false
  | c :: rest => (c == '=' && kwThenTime (some '=') rest) || summaryMatch rest

/-! ## TestVerifier._run_pytest: report construction -/

/-- A line is kept in the filtered log when it carries a per-test marker or
matches the summary pattern. -/
def lineIsResult (l : List Char) : Bool := testMarker l || summaryMatch l

/-- The filtered result lines of `_run_pytest`: split the raw output into
rstripped lines, keep marker and summary lines, then re-append the last line
matching "number passed" when the filter dropped it, preceded by a blank
separator when the current last kept line is not blank.  (In the source the
appended line is also guarded by string truthiness, hence the emptiness
test.) -/
def filteredLines (raw : List Char) : List (List Char) :=
  let lines := (pySplitlines raw).map pyRstrip
  let result_lines := lines.filter lineIsResult
  match lines.reverse.find? (fun l => (searchNumKw kwPassedL l).isSome) with
  | none => result_lines
  | some sl =>
    if sl.isEmpty then result_lines
    else if result_lines.contains sl then result_lines
    else
      (if !result_lines.isEmpty && !(pyStripL (result_lines.getLastD [])).isEmpty
       then result_lines ++ [[]]
       else result_lines) ++ [sl]

/-- The verification report assembled by `_run_pytest` (the wall-clock
execution time, screenshots and timestamp fields are environment values
outside the model). -/
structure PytestReport where
  success : Bool
  passed : Nat
  failed : Nat
  errors : Nat
  output : List Char
deriving DecidableEq

/-- The report-parsing portion of `TestVerifier._run_pytest`: counts are
taken from a direct numeric match on the raw text when present; otherwise
the passed and failed counts fall back to counting word-marked filtered
lines that are not summary lines, while the errors fallback counts every
filtered line containing the word error.  Success is the return code
comparison, nothing else. -/
def pytestParse (raw : List Char) (rc : Int) : PytestReport :=
  let result_lines := filteredLines raw
  let passed :=
    match searchNumKw kwPassedL raw with
    | some n => n
    | none => result_lines.countP fun l => searchWordCI kwPassedL l && !summaryMatch l
  let failed :=
    match searchNumKw kwFailedL raw with
    | some n => n
    | none => result_lines.countP fun l => searchWordCI kwFailedL l && !summaryMatch l
  let errors :=
    match searchNumKw kwErrorL raw with
    | some n => n
    | none => result_lines.countP fun l => searchWordCI kwErrorL l
  { success := rc == 0
    passed := passed
    failed := failed
    errors := errors
    output := pyStripL (List.intercalate ['\n'] result_lines) }

/-- Modelled from the spec: the fallback count for a given marker excludes
lines that are themselves the summary line.  This is the behaviour the spec
asserts for every count; it is compared against the counts computed by
`pytestParse`. -/
def specMarkerCount (kw : List Char) (raw : List Char) : Nat :=
  match searchNumKw kw raw with
  | some n => n
  | none => (filteredLines raw).countP fun l => searchWordCI kw l && !summaryMatch l

/-- The filtered lines counted by the errors fallback of the source that the
spec-described fallback would exclude: summary lines containing the word
error (zero whenever the direct numeric match applies). -/
def summaryErrorOverlap (raw : List Char) : Nat :=
  match searchNumKw kwErrorL raw with
  | some _ => 0
  | none => (filteredLines raw).countP fun l => searchWordCI kwErrorL l && summaryMatch l

/-- Concrete runner output for the error-count fallback: one per-test error
line plus a summary line that itself contains the word error and no direct
numeric error count. -/
def cexPytestRaw : List Char :=
  "ERROR test_setup\n==== error in 0.10s ====".toList

/-! ## CodeGenerator.verify_and_refine: the self-correction loop -/

/-- The observable part of the dict returned by `TestVerifier.verify`: the
truthiness of its success entry and its optional output entry (the other
entries are counts, timing and screenshots, which the loop never reads). -/
structure VerifResult where
  success : Bool
  output : Option String
deriving DecidableEq

/-- The issue text handed to `refine_code`: the report output unless it is
missing or empty (Python `or` treats the empty string as false). -/
def issueOf (r : VerifResult) : String :=
  match r.output with
  | some s => if s = "" then "Tests failed during execution" else s
  | none => "Tests failed during execution"

/-- The value returned by `verify_and_refine` (its code and verification
entries), instrumented with the number of `verifier.verify` calls, the number
of `refine_code` calls, and the code artifact passed to the most recent
`verifier.verify` call. -/
structure VRTrace (C : Type) where
  code : C
  verification : Option VerifResult
  verifyCalls : Nat
  refineCalls : Nat
  lastVerified : Option C
deriving DecidableEq

/-- Loop body of `verify_and_refine`, one recursive step per iteration of
`for attempt in range(1, max_rounds + 1)`.  `verify` and `refine` are the
external collaborators, indexed by the attempt number so each call may behave
differently.  Each failed iteration — including the last one — derives an
issue text and calls `refine_code` before the next round or the final
return; websocket progress sends and the guarded metrics recording are
observational and omitted. -/
def verifyAndRefineAux {C : Type} (verify : Nat → C → VerifResult)
    (refine : Nat → C → String → C) :
    C → Nat → Nat → Option VerifResult → Option C → Nat → Nat → VRTrace C
  | code, _, 0, last, lastV, vc, rc =>
    { code := code, verification := last, verifyCalls := vc, refineCalls := rc
      lastVerified := lastV }
  | code, attempt, remaining + 1, _, _, vc, rc =>
    let result := verify attempt code
    if result.success then
      { code := code, verification := some result, verifyCalls := vc + 1
        refineCalls := rc, lastVerified := some code }
    else
      let issue := issueOf result
      let code2 := refine attempt code issue
      verifyAndRefineAux verify refine code2 (attempt + 1) remaining
        (some result) (some code) (vc + 1) (rc + 1)

/-- `CodeGenerator.verify_and_refine` (generator.py lines 147-198): run up to
`maxRounds` verification attempts, refining after every failure, and return
the last code with the last verification result. -/
def verifyAndRefine {C : Type} (verify : Nat → C → VerifResult)
    (refine : Nat → C → String → C) (code : C) (maxRounds : Nat) : VRTrace C :=
  verifyAndRefineAux verify refine code 1 maxRounds none none 0 0

/-- A verifier collaborator whose execution attempts always fail with no
captured output. -/
def cexVerify : Nat → Nat → VerifResult := fun _ _ => { success := false, output := none }

/-- A refinement collaborator that always produces a fresh code artifact. -/
def cexRefine : Nat → Nat → String → Nat := fun _ c _ => c + 1

/-! ## LLMClient.generate -/

/-- The outcome of the provider completion call inside `LLMClient.generate`:
either a response (content plus optional usage total) or a raised exception
carrying a message. -/
inductive ProviderOutcome where
  | ok (content : String) (usage : Option Nat)
  | raises (message : String)

/-- How `LLMClient.generate` finishes: returning a result dict (text and
token fields; the elapsed-time field is wall clock, outside the model) or
propagating `NoTokensError`. -/
inductive GenerateResult where
  | returns (text : String) (tokens : Nat)
  | raisesNoTokens (message : String)
deriving DecidableEq

/-- Substring test, Python's `in` operator on strings. -/
def findSubIdxAux (pat : List Char) (i : Nat) : List Char → Option Nat
  | [] => if pat.isEmpty then some i else none
  | l@(_ :: rest) => if pat.isPrefixOf l then some i else findSubIdxAux pat (i + 1) rest

/-- Index of the first occurrence of `pat` (Python str.find semantics for a
found pattern; none when absent). -/
def findSubIdx (pat l : List Char) : Option Nat := findSubIdxAux pat 0 l

/-- Python `pat in l` for strings. -/
def containsSub (l pat : List Char) : Bool := (findSubIdx pat l).isSome

/-- The quota-detection condition of the except handler in
`LLMClient.generate` (lines 88): two case-sensitive substring tests on the
message plus two case-insensitive ones. -/
def isQuotaMessage (msg : String) : Bool :=
  containsSub msg.toList "RESOURCE_EXHAUSTED".toList ||
  containsSub msg.toList "exceeded your current quota".toList ||
  containsSub (lowerL msg.toList) "quota".toList ||
  containsSub (lowerL msg.toList) "rate_limit".toList

/-- The message of the `NoTokensError` raised when the provider reports zero
total tokens. -/
def noTokensInternalMsg : String := "No tokens available from LLM provider"

/-- The `except Exception` handler of `LLMClient.generate`: re-raise
quota-style messages as `NoTokensError`, otherwise return the error-text
dict with zero tokens. -/
def handleGenerateError (msg : String) : GenerateResult :=
  if isQuotaMessage msg then .raisesNoTokens msg else .returns ("Error: " ++ msg) 0

/-- `LLMClient.generate` (llm_client.py lines 34-95).  A reported usage of
zero total tokens raises `NoTokensError` inside the same try block whose
except clause performs the quota classification, so that exception is itself
caught there. -/
def llmGenerate (out : ProviderOutcome) : GenerateResult :=
  match out with
  | .raises msg => handleGenerateError msg
  | .ok content usage =>
    let tokens := usage.getD 0
    if tokens == 0 then handleGenerateError noTokensInternalMsg
    else .returns content tokens

/-! ## LLMClient.generate_json -/

/-- The exceptions the string operations of the extractors can raise. -/
inductive PyErr where
  | valueError
  | indexError
deriving DecidableEq

/-- Python list indexing, which raises IndexError past the end. -/
def listGet {α : Type} (l : List α) (i : Nat) : Except PyErr α :=
  match l.drop i with
  | [] => .error .indexError
  | a :: _ => .ok a

/-- Worker for the full str.split: cut at each occurrence of the separator.
Each step consumes at least one character of a nonempty separator, so the
length of the text bounds the number of cuts. -/
def splitAllFuel (sep : List Char) : Nat → List Char → List (List Char)
  | 0, s => [s]
  | fuel + 1, s =>
    match findSubIdx sep s with
    | none => [s]
    | some i => s.take i :: splitAllFuel sep fuel (s.drop (i + sep.length))

/-- Python str.split with a separator argument: ValueError on an empty
separator, otherwise the list of pieces between occurrences. -/
def pySplitAll (s sep : List Char) : Except PyErr (List (List Char)) :=
  if sep.isEmpty then .error .valueError
  else .ok (splitAllFuel sep s.length s)

def jsonKw : List Char := "json".toList

/-- The extraction and parsing of `LLMClient.generate_json` (llm_client.py
lines 108-129): the whole try block, whose except clause turns any exception
into the json-is-None sentinel on the result dict.  `loads` stands for
`json.loads`, which may raise.  Both extraction branches split on the empty
string, and Python's str.split raises ValueError for an empty separator; the
second branch is guarded by the test that the empty string occurs in the
text, which always holds. -/
def llmGenerateJson {J : Type} (loads : List Char → Except PyErr J)
    (text : List Char) : Option J :=
  let extracted : Except PyErr J := do
    let t ←
      if containsSub text jsonKw then do
        let parts ← pySplitAll text jsonKw
        let p1 ← listGet parts 1
        let parts2 ← pySplitAll p1 []
        listGet parts2 0
      else if containsSub text [] then do
        let parts ← pySplitAll text []
        let p1 ← listGet parts 1
        let parts2 ← pySplitAll p1 []
        listGet parts2 0
      else pure text
    loads (pyStripL t)
  match extracted with
  | .ok j => some j
  | .error _ => none

/-! ## CopilotClient.generate_json -/

/-- The fields of the result dict of `CopilotClient.generate_json` that the
extraction stages write: the parsed value and the diagnostic preview attached
on failure (text, tokens, raw and time are pass-through values from the
generate call). -/
structure CopilotJsonResult (J : Type) where
  json : Option J
  raw_text_preview : Option (List Char)

def fenceJsonPat : List Char := "```json".toList
def fencePat : List Char := "```".toList

/-- Python str.split with maxsplit 1: at most one cut, at the first
occurrence of the separator. -/
def pySplit1 (s sep : List Char) : Except PyErr (List (List Char)) :=
  if sep.isEmpty then .error .valueError
  else
    match findSubIdx sep s with
    | none => .ok [s]
    | some i => .ok [s.take i, s.drop (i + sep.length)]

/-- The code-fence extraction step of `CopilotClient.generate_json` (lines
214-219): prefer the interior after a json fence, else after any fence, else
the whole text. -/
def fenceExtract (text : List Char) : Except PyErr (List Char) := do
  if containsSub text fenceJsonPat then
    let p ← pySplit1 text fenceJsonPat
    let p1 ← listGet p 1
    let q ← pySplit1 p1 fencePat
    listGet q 0
  else if containsSub text fencePat then
    let p ← pySplit1 text fencePat
    let p1 ← listGet p 1
    let q ← pySplit1 p1 fencePat
    listGet q 0
  else pure text

/-- Index of the first character satisfying `p` (re.search for a character
class). -/
def findFirstIdxAux (p : Char → Bool) (i : Nat) : List Char → Option Nat
  | [] => none
  | c :: rest => if p c then some i else findFirstIdxAux p (i + 1) rest

/-- Python str.rfind for a single character: index of the last occurrence,
minus one when absent. -/
def pyRfindAux (c : Char) (i : Nat) (best : Int) : List Char → Int
  | [] => best
  | d :: rest => pyRfindAux c (i + 1) (if d == c then (i : Int) else best) rest

def pyRfind (c : Char) (l : List Char) : Int := pyRfindAux c 0 (-1) l

/-- The balanced-delimiter scan of `CopilotClient.generate_json` (lines
238-250): walk the text counting open and close delimiters and report the
index where the depth first returns to zero. -/
def balancedEndIdx (openc closec : Char) : Nat → Int → List Char → Option Nat
  | _, _, [] => none
  | i, depth, c :: rest =>
    if c == openc then balancedEndIdx openc closec (i + 1) (depth + 1) rest
    else if c == closec then
      if depth - 1 = 0 then some i else balancedEndIdx openc closec (i + 1) (depth - 1) rest
    else balancedEndIdx openc closec (i + 1) depth rest

/-- The four smart-quote replacements of the repair stage (line 267), which
touch pairwise distinct characters and so compose into one character map. -/
def normalizeQuote (c : Char) : Char :=
  if c == '‘' || c == '’' then Char.ofNat 39
  else if c == '“' || c == '”' then '"'
  else c

/-- State machine for re.sub of comma-whitespace-closing-delimiter with the
closing delimiter (line 272): after a comma, buffer following whitespace; a
closing brace or bracket ends the match and drops the buffered characters,
anything else flushes them.  The scanner resumes after a replacement, and no
match can start inside buffered whitespace because a match starts with a
comma. -/
def subTrailingCommasAux : Option (List Char) → List Char → List Char
  | none, [] => []
  | some ws, [] => ',' :: ws.reverse
  | none, c :: rest =>
    if c == ',' then subTrailingCommasAux (some []) rest
    else c :: subTrailingCommasAux none rest
  | some ws, c :: rest =>
    if isPySpace c then subTrailingCommasAux (some (c :: ws)) rest
    else if c == '\x7d' || c == ']' then c :: subTrailingCommasAux none rest
    else
      (',' :: ws.reverse) ++
        (if c == ',' then subTrailingCommasAux (some []) rest
         else c :: subTrailingCommasAux none rest)

def subTrailingCommas (l : List Char) : List Char := subTrailingCommasAux none l

/-- The candidate substring of `CopilotClient.generate_json`: the stripped
fence interior with everything before the first opening brace or bracket
discarded (lines 221-228). -/
def copilotSnippet (fence : List Char) : List Char :=
  let snippet0 := pyStripL fence
  match findFirstIdxAux (fun c => c == '\x7b' || c == '[') 0 snippet0 with
  | some i => snippet0.drop i
  | none => snippet0

/-- The three parsing stages of `CopilotClient.generate_json` on the
candidate substring (lines 236-273): balanced scan, tail-trim fallback,
heuristic repair.  `loads` stands for `json.loads` wrapped in the source's
`try_load`, which converts any parse exception into None. -/
def copilotParsed {J : Type} (loads : List Char → Option J) (snippet : List Char) :
    Option J :=
  let parsed1 : Option J :=
    match snippet with
    | [] => none
    | c :: _ =>
      if c == '\x7b' || c == '[' then
        let closec := if c == '\x7b' then '\x7d' else ']'
        match balancedEndIdx c closec 0 0 snippet with
        | some endIdx => loads (snippet.take (endIdx + 1))
        | none => none
      else none
  let parsed2 : Option J :=
    match parsed1 with
    | some j => some j
    | none =>
      let lastPos : Int := max (pyRfind '\x7d' snippet) (pyRfind ']' snippet)
      if lastPos != -1 then loads (snippet.take (lastPos + 1).toNat) else none
  let parsed3 : Option J :=
    match parsed2 with
    | some j => some j
    | none =>
      if snippet.isEmpty then none
      else
        let c1 := snippet.map normalizeQuote
        let c2 :=
          if c1.contains (Char.ofNat 39) && !(c1.contains '"') then
            c1.map (fun c => if c == Char.ofNat 39 then '"' else c)
          else c1
        loads (subTrailingCommas c2)
  parsed3

/-- The result assembly of `CopilotClient.generate_json` (lines 275-284): a
parsed value, or the json-is-None sentinel together with the first thousand
characters of the candidate substring as diagnostic preview. -/
def copilotFinish {J : Type} (parsed : Option J) (snippet : List Char) :
    CopilotJsonResult J :=
  match parsed with
  | some j => { json := some j, raw_text_preview := none }
  | none => { json := none, raw_text_preview := some (snippet.take 1000) }

/-- The pure tail of `CopilotClient.generate_json` after fence extraction:
anchor the candidate, run the parsing stages, assemble the result. -/
def copilotCore {J : Type} (loads : List Char → Option J) (fence : List Char) :
    CopilotJsonResult J :=
  let snippet := copilotSnippet fence
  copilotFinish (copilotParsed loads snippet) snippet

/-- The extraction pipeline of `CopilotClient.generate_json` applied to the
optional text of a completed generate call (line 211 defaults a missing or
falsy text entry to the empty string before stripping). -/
def copilotGenerateJson {J : Type} (loads : List Char → Option J)
    (textIn : Option (List Char)) : Except PyErr (CopilotJsonResult J) := do
  let text := pyStripL (textIn.getD [])
  let fence ← fenceExtract text
  pure (copilotCore loads fence)

/-! ## Session orchestrator (backend/main.py) -/

/-- `MetricsTracker` (utils/metrics.py): the iteration log; the start time is
wall clock, outside the model.  Entries are opaque to the orchestrator. -/
structure MetricsState (ME : Type) where
  iterations : List ME

/-- `MetricsTracker.add_iteration` repeated for the entries a collaborator
appends during one phase operation. -/
def MetricsState.addMany {ME : Type} (m : MetricsState ME) (es : List ME) :
    MetricsState ME :=
  { iterations := m.iterations ++ es }

/-- `MetricsTracker.reset` (metrics.py lines 102-105): clear the log. -/
def MetricsState.reset {ME : Type} (_m : MetricsState ME) : MetricsState ME :=
  { iterations := [] }

/-- `AgentState` (main.py lines 35-48): the session fields the command
handlers read and write.  Page knowledge, test cases and metric entries are
opaque payloads produced by collaborators; `browser_manager` records whether
the field holds an instance (is not None).  The collaborator holder fields
(explorer, designer, generator, verifier, llm client, langfuse) carry no
session data and are outside the model. -/
structure AgentSt (PK TC ME : Type) where
  current_phase : Option String
  page_knowledge : Option PK
  test_cases : Option TC
  generated_code : Option String
  metrics : MetricsState ME
  browser_manager : Bool

/-- `AgentState.reset` (main.py lines 50-61): clear the phase and artifact
fields, reset the metrics, schedule the browser close and drop the browser
reference. -/
def AgentSt.reset {PK TC ME : Type} (st : AgentSt PK TC ME) : AgentSt PK TC ME :=
  { current_phase := none
    page_knowledge := none
    test_cases := none
    generated_code := none
    metrics := st.metrics.reset
    browser_manager := false }

/-- The websocket messages a handler sends that carry control-flow meaning:
terminal error events (with their optional phase tag) and the phase start
and completion events. -/
inductive AEvent where
  | error (phase : Option String) (message : String)
  | phaseStart (phase : String) (message : String)
  | phaseComplete (phase : String)
deriving DecidableEq

/-- The error text sent for `NoTokensError` by every handler. -/
def noTokensMsg : String :=
  "No more tokens available from LLM provider. Please refill quota or reset the agent."

/-- How the collaborator calls inside `handle_explore` turn out.  A browser
launch failure raises before the phase field is assigned; the explorer
itself can raise `NoTokensError` or a generic exception after the phase
field is assigned, possibly having appended metric entries first. -/
inductive ExploreOutcome (PK ME : Type) where
  | browserFail (message : String)
  | exploreNoTokens (entries : List ME)
  | exploreFail (message : String) (entries : List ME)
  | ok (pk : PK) (entries : List ME)

/-- `handle_explore` (main.py lines 153-213).  The phase field is assigned
just before the explorer runs and is not restored on any failure path. -/
def handle_explore {PK TC ME : Type} (st : AgentSt PK TC ME) (url : Option String)
    (out : ExploreOutcome PK ME) : AgentSt PK TC ME × List AEvent :=
  match url with
  | none => (st, [.error none "URL is required"])
  | some u =>
    let ev0 := AEvent.phaseStart "exploration" ("Starting exploration of " ++ u ++ "...")
    match out with
    | .browserFail msg =>
      ({ st with browser_manager := true }, [ev0, .error (some "exploration") msg])
    | .exploreNoTokens es =>
      ({ st with
          browser_manager := true,
          current_phase := some "exploration",
          metrics := st.metrics.addMany es },
       [ev0, .error (some "exploration") noTokensMsg])
    | .exploreFail msg es =>
      ({ st with
          browser_manager := true,
          current_phase := some "exploration",
          metrics := st.metrics.addMany es },
       [ev0, .error (some "exploration") msg])
    | .ok pk es =>
      ({ st with
          browser_manager := true,
          current_phase := some "exploration",
          page_knowledge := some pk,
          metrics := st.metrics.addMany es },
       [ev0, .phaseComplete "exploration"])

/-- How the designer call inside `handle_design` turns out. -/
inductive DesignOutcome (TC ME : Type) where
  | designNoTokens (entries : List ME)
  | designFail (message : String) (entries : List ME)
  | ok (tc : TC) (entries : List ME)

/-- `handle_design` (main.py lines 215-271): rejected outright when no page
knowledge exists, before any trace, event or state change. -/
def handle_design {PK TC ME : Type} (st : AgentSt PK TC ME)
    (out : DesignOutcome TC ME) : AgentSt PK TC ME × List AEvent :=
  match st.page_knowledge with
  | none => (st, [.error none "Must explore page first"])
  | some _ =>
    let ev0 := AEvent.phaseStart "design" "Designing test cases..."
    match out with
    | .designNoTokens es =>
      ({ st with
          current_phase := some "design",
          metrics := st.metrics.addMany es },
       [ev0, .error (some "design") noTokensMsg])
    | .designFail msg es =>
      ({ st with
          current_phase := some "design",
          metrics := st.metrics.addMany es },
       [ev0, .error (some "design") msg])
    | .ok tc es =>
      ({ st with
          current_phase := some "design",
          test_cases := some tc,
          metrics := st.metrics.addMany es },
       [ev0, .phaseComplete "design"])

/-- How the generation pipeline inside `handle_generate` turns out: the
generator or the verify-and-refine loop raises (`NoTokensError` or generic),
or the loop returns its final code and verification. -/
inductive GenerateOutcome (ME : Type) where
  | genNoTokens (entries : List ME)
  | genFail (message : String) (entries : List ME)
  | ok (finalCode : String) (verification : Option VerifResult) (entries : List ME)

/-- `handle_generate` (main.py lines 374-445): rejected when no test cases
exist; otherwise the phase field is assigned before the generator runs and
is not restored on any failure path; on completion the final code of the
self-correction loop is stored. -/
def handle_generate {PK TC ME : Type} (st : AgentSt PK TC ME)
    (out : GenerateOutcome ME) : AgentSt PK TC ME × List AEvent :=
  match st.test_cases with
  | none => (st, [.error none "Must design test cases first"])
  | some _ =>
    let ev0 := AEvent.phaseStart "generation" "Generating test code..."
    match out with
    | .genNoTokens es =>
      ({ st with
          current_phase := some "generation",
          metrics := st.metrics.addMany es },
       [ev0, .error (some "generation") noTokensMsg])
    | .genFail msg es =>
      ({ st with
          current_phase := some "generation",
          metrics := st.metrics.addMany es },
       [ev0, .error (some "generation") msg])
    | .ok code _verif es =>
      ({ st with
          current_phase := some "generation",
          generated_code := some code,
          metrics := st.metrics.addMany es },
       [ev0, .phaseComplete "generation"])

/-- A fresh session state over opaque unit payloads, as built by the module
initializer. -/
def cexState : AgentSt Unit Unit Unit :=
  { current_phase := none
    page_knowledge := none
    test_cases := none
    generated_code := none
    metrics := { iterations := [] }
    browser_manager := false }

/-! ## Helper lemmas -/

/-- Splitting a conditional count by a second predicate. -/
theorem countP_and_not_add {α : Type} (p q : α → Bool) (l : List α) :
    l.countP p =
      l.countP (fun a => p a && !q a) + l.countP (fun a => p a && q a) := by
  induction l with
  | nil => simp
  | cons a t ih =>
    cases hp : p a <;> cases hq : q a <;>
      simp [List.countP_cons, hp, hq, ih] <;> omega

/-- Call-count bound for the loop body: a budget of `rem` remaining rounds
adds at most `rem` verification calls and at most `rem` refinement calls. -/
theorem verifyAndRefineAux_calls_le {C : Type} (v : Nat → C → VerifResult)
    (rf : Nat → C → String → C) :
    ∀ (rem attempt : Nat) (code : C) (last : Option VerifResult)
      (lastV : Option C) (vc rc : Nat),
      (verifyAndRefineAux v rf code attempt rem last lastV vc rc).verifyCalls ≤ vc + rem ∧
      (verifyAndRefineAux v rf code attempt rem last lastV vc rc).refineCalls ≤ rc + rem := by
  intro rem
  induction rem with
  | zero =>
    intro attempt code last lastV vc rc
    simp [verifyAndRefineAux]
  | succ r ih =>
    intro attempt code last lastV vc rc
    simp only [verifyAndRefineAux]
    cases h : (v attempt code).success
    · simp only [h, Bool.false_eq_true, if_false]
      have := ih (attempt + 1) (rf attempt code (issueOf (v attempt code)))
        (some (v attempt code)) (some code) (vc + 1) (rc + 1)
      exact ⟨this.1.trans (by omega), this.2.trans (by omega)⟩
    · simp only [h, if_true]
      constructor <;> simp

/-- One failed round of the loop body: verify, build the issue, refine, and
continue with one less remaining round and both counters advanced. -/
theorem verifyAndRefineAux_step_fail {C : Type} (v : Nat → C → VerifResult)
    (rf : Nat → C → String → C) (attempt : Nat) (code : C)
    (h : (v attempt code).success = false) (rem : Nat)
    (last : Option VerifResult) (lastV : Option C) (vc rc : Nat) :
    verifyAndRefineAux v rf code attempt (rem + 1) last lastV vc rc =
      verifyAndRefineAux v rf (rf attempt code (issueOf (v attempt code)))
        (attempt + 1) rem (some (v attempt code)) (some code) (vc + 1) (rc + 1) := by
  simp only [verifyAndRefineAux, h, Bool.false_eq_true, if_false]

/-- When every verification attempt fails, the loop body runs through all
remaining rounds, refining once per round; the report it keeps is the one of
the final attempt, taken on the code `c` verified last, while the returned
code is the refinement of `c`. -/
theorem verifyAndRefineAux_exhaust {C : Type} (v : Nat → C → VerifResult)
    (rf : Nat → C → String → C) (hf : ∀ k c, (v k c).success = false) :
    ∀ rem, 1 ≤ rem → ∀ (attempt : Nat) (code : C) (last : Option VerifResult)
      (lastV : Option C) (vc rc : Nat),
      ∃ c, verifyAndRefineAux v rf code attempt rem last lastV vc rc =
        { code := rf (attempt + rem - 1) c (issueOf (v (attempt + rem - 1) c))
          verification := some (v (attempt + rem - 1) c)
          verifyCalls := vc + rem
          refineCalls := rc + rem
          lastVerified := some c } := by
  intro rem
  induction rem with
  | zero => intro h; exact absurd h (by decide)
  | succ r ih =>
    intro _ attempt code last lastV vc rc
    cases r with
    | zero =>
      refine ⟨code, ?_⟩
      simp [verifyAndRefineAux, hf attempt code]
    | succ r2 =>
      obtain ⟨c, hc⟩ := ih (by omega) (attempt + 1)
        (rf attempt code (issueOf (v attempt code)))
        (some (v attempt code)) (some code) (vc + 1) (rc + 1)
      refine ⟨c, ?_⟩
      rw [verifyAndRefineAux_step_fail v rf attempt code (hf attempt code), hc]
      have e1 : attempt + 1 + (r2 + 1) - 1 = attempt + (r2 + 1 + 1) - 1 := by omega
      have e2 : vc + 1 + (r2 + 1) = vc + (r2 + 1 + 1) := by omega
      have e3 : rc + 1 + (r2 + 1) = rc + (r2 + 1 + 1) := by omega
      rw [e1, e2, e3]

/-- A split on a contained, nonempty separator followed by taking the second
piece, a second split and taking the first piece never raises. -/
theorem splitChain_ok (t p1 p2 : List Char) (h1 : p1.isEmpty = false)
    (h2 : p2.isEmpty = false) (hc : containsSub t p1 = true) :
    ∃ s, (do
      let p ← pySplit1 t p1
      let x ← listGet p 1
      let q ← pySplit1 x p2
      listGet q 0 : Except PyErr (List Char)) = Except.ok s := by
  unfold containsSub at hc
  cases hf : findSubIdx p1 t with
  | none => rw [hf] at hc; simp at hc
  | some i =>
    simp only [pySplit1, h1, Bool.false_eq_true, if_false, hf, Bind.bind, Except.bind]
    cases hg : findSubIdx p2 (t.drop (i + p1.length)) <;>
      simp [listGet, hg, h2]

/-- A successful fence extraction exists for every input text: each list
index taken after a split is guarded by the corresponding containment test. -/
theorem fenceExtract_ok (text : List Char) : ∃ s, fenceExtract text = .ok s := by
  unfold fenceExtract
  cases hc1 : containsSub text fenceJsonPat with
  | true =>
    simp only [hc1, if_true]
    exact splitChain_ok text fenceJsonPat fencePat rfl rfl hc1
  | false =>
    cases hc2 : containsSub text fencePat with
    | true =>
      simp only [hc1, hc2, Bool.false_eq_true, if_false, if_true]
      exact splitChain_ok text fencePat fencePat rfl rfl hc2
    | false =>
      simp only [hc1, hc2, Bool.false_eq_true, if_false]
      exact ⟨text, rfl⟩

/-- The result assembly always yields either a parsed value or the sentinel
with a preview of at most a thousand characters. -/
theorem copilotFinish_spec {J : Type} (parsed : Option J) (snippet : List Char) :
    (∃ j, (copilotFinish parsed snippet).json = some j) ∨
    ((copilotFinish parsed snippet).json = none ∧
      ∃ p, (copilotFinish parsed snippet).raw_text_preview = some p ∧
        p.length ≤ 1000) := by
  cases parsed with
  | some j => exact Or.inl ⟨j, rfl⟩
  | none =>
    refine Or.inr ⟨rfl, snippet.take 1000, rfl, ?_⟩
    simp

/-! ## Claim theorems -/

/-- Claim C1, counterexample: with a budget of one round and an execution
attempt that fails, `verify_and_refine` performs one verification call and
one refinement call, exceeding the claimed bound of zero refinement calls. -/
theorem verify_and_refine_budget_cex :
    ¬ ((verifyAndRefine cexVerify cexRefine 0 1).verifyCalls ≤ 1 ∧
       (verifyAndRefine cexVerify cexRefine 0 1).refineCalls ≤ 1 - 1) := by
  decide

/-- Claim C1, amended: for every code artifact and retry budget of at least
one round, the self-correction loop performs at most that many execution
attempts and at most that many refinement calls — a refinement is also
performed after the final failed attempt, so the refinement bound is the
budget itself rather than the budget minus one. -/
theorem verify_and_refine_call_bounds {C : Type} (v : Nat → C → VerifResult)
    (rf : Nat → C → String → C) (code : C) (n : Nat) (_hn : 1 ≤ n) :
    (verifyAndRefine v rf code n).verifyCalls ≤ n ∧
    (verifyAndRefine v rf code n).refineCalls ≤ n := by
  have h := verifyAndRefineAux_calls_le v rf n 1 code none none 0 0
  unfold verifyAndRefine
  exact ⟨h.1.trans (by omega), h.2.trans (by omega)⟩

/-- Witness for the amended Claim C1 at a concrete instance. -/
theorem verify_and_refine_call_bounds_witness :
    1 ≤ 2 ∧
    ((verifyAndRefine cexVerify cexRefine 0 2).verifyCalls ≤ 2 ∧
     (verifyAndRefine cexVerify cexRefine 0 2).refineCalls ≤ 2) :=
  ⟨by decide, verify_and_refine_call_bounds cexVerify cexRefine 0 2 (by decide)⟩

/-- Claim C2, counterexample: starting from a fresh idle session, an explorer
failure inside `handle_explore` leaves the phase field set to the in-progress
value of the exploration that did not complete — neither the prior resting
value nor the idle value. -/
theorem handler_phase_resting_cex :
    ¬ (((handle_explore cexState (some "https://example.com")
          (.exploreFail "navigation error" [])).1.current_phase =
        cexState.current_phase) ∨
       ((handle_explore cexState (some "https://example.com")
          (.exploreFail "navigation error" [])).1.current_phase = none)) := by
  decide

/-- Claim C2, amended: `handle_explore` leaves the phase field at its prior
value when the command is rejected for a missing URL or when the browser
launch fails before the phase is entered, and at the in-progress value of the
exploration in every other case, success or failure; `handle_generate`
likewise leaves the phase at its prior value on a precondition rejection and
at the in-progress generation value otherwise.  Failed operations are not
reset to an idle phase. -/
theorem handler_phase_after_characterization {PK TC ME : Type}
    (st : AgentSt PK TC ME) (url : Option String) (out : ExploreOutcome PK ME)
    (st2 : AgentSt PK TC ME) (gout : GenerateOutcome ME) :
    ((handle_explore st url out).1.current_phase =
      match url, out with
      | none, _ => st.current_phase
      | some _, .browserFail _ => st.current_phase
      | some _, _ => some "exploration") ∧
    ((handle_generate st2 gout).1.current_phase =
      match st2.test_cases with
      | none => st2.current_phase
      | some _ => some "generation") := by
  constructor
  · cases url <;> cases out <;> rfl
  · cases h : st2.test_cases <;> cases gout <;> simp [handle_generate, h]

/-- Claim C3: the execution report marks success exactly when the runner's
return code is zero, independently of the raw output text and hence of any
parsed counts. -/
theorem pytest_success_from_returncode (raw raw2 : List Char) (rc : Int) :
    ((pytestParse raw rc).success = true ↔ rc = 0) ∧
    (pytestParse raw rc).success = (pytestParse raw2 rc).success := by
  constructor
  · show ((rc == 0) = true ↔ rc = 0)
    exact beq_iff_eq
  · rfl

/-- Claim C4, counterexample: on a raw output with one per-test error line
and a summary line containing the word error, with no direct numeric error
count, the parser counts two errors while the spec-described fallback, which
excludes summary lines, counts one. -/
theorem pytest_error_fallback_cex :
    (pytestParse cexPytestRaw 0).errors = 2 ∧
    specMarkerCount kwErrorL cexPytestRaw = 1 := by
  exact ⟨rfl, rfl⟩

/-- Claim C4, amended: each count prefers the direct numeric match on the raw
text; the passed and failed fallbacks count marker lines of the filtered
subset excluding summary lines, exactly as the spec describes, but the
errored fallback does not exclude summary lines — it exceeds the
spec-described count by the number of filtered summary lines containing the
word error. -/
theorem pytest_counts_characterization (raw : List Char) (rc : Int) :
    (pytestParse raw rc).passed = specMarkerCount kwPassedL raw ∧
    (pytestParse raw rc).failed = specMarkerCount kwFailedL raw ∧
    (pytestParse raw rc).errors =
      specMarkerCount kwErrorL raw + summaryErrorOverlap raw := by
  refine ⟨rfl, rfl, ?_⟩
  unfold pytestParse specMarkerCount summaryErrorOverlap
  cases h : searchNumKw kwErrorL raw with
  | some n => simp [h]
  | none =>
    simp only [h]
    exact countP_and_not_add (fun l => searchWordCI kwErrorL l) summaryMatch
      (filteredLines raw)

/-- Claim C5, counterexample: with a budget of one round and a failing
execution, the code returned by `verify_and_refine` is not the code passed to
its last verification call — the returned artifact is one refinement past the
artifact the final report describes. -/
theorem vr_exhaustion_report_cex :
    ¬ ((verifyAndRefine cexVerify cexRefine 0 1).lastVerified =
       some (verifyAndRefine cexVerify cexRefine 0 1).code) := by
  decide

/-- Claim C5, amended: when every execution attempt fails, the loop returns
normally with the report of the final execution attempt, taken on the code
`c` verified last; the returned code is not `c` itself but the refinement
produced from `c` and that final report. -/
theorem vr_exhaustion_returns_last {C : Type} (v : Nat → C → VerifResult)
    (rf : Nat → C → String → C) (c0 : C) (n : Nat)
    (hf : ∀ k c, (v k c).success = false) (hn : 1 ≤ n) :
    ∃ c, verifyAndRefine v rf c0 n =
      { code := rf n c (issueOf (v n c))
        verification := some (v n c)
        verifyCalls := n
        refineCalls := n
        lastVerified := some c } := by
  obtain ⟨c, hc⟩ := verifyAndRefineAux_exhaust v rf hf n hn 1 c0 none none 0 0
  simp only [Nat.add_sub_cancel_left, Nat.zero_add] at hc
  exact ⟨c, hc⟩

/-- Witness for the amended Claim C5 at a concrete instance. -/
theorem vr_exhaustion_returns_last_witness :
    (∀ k c, (cexVerify k c).success = false) ∧ 1 ≤ 1 ∧
    ∃ c, verifyAndRefine cexVerify cexRefine 0 1 =
      { code := cexRefine 1 c (issueOf (cexVerify 1 c))
        verification := some (cexVerify 1 c)
        verifyCalls := 1
        refineCalls := 1
        lastVerified := some c } :=
  ⟨fun _ _ => rfl, by decide,
    vr_exhaustion_returns_last cexVerify cexRefine 0 1 (fun _ _ => rfl) (by decide)⟩

/-- Claim C6: for every optional response text, the extraction stages of
`CopilotClient.generate_json` complete without an exception and produce
either a parsed value or the json-is-None sentinel carrying a diagnostic
preview of at most a thousand characters of the best candidate substring. -/
theorem copilot_generate_json_total {J : Type} (loads : List Char → Option J)
    (textIn : Option (List Char)) :
    ∃ r, copilotGenerateJson loads textIn = .ok r ∧
      ((∃ j, r.json = some j) ∨
       (r.json = none ∧
        ∃ p, r.raw_text_preview = some p ∧ p.length ≤ 1000)) := by
  obtain ⟨s, hs⟩ := fenceExtract_ok (pyStripL (textIn.getD []))
  refine ⟨copilotCore loads s, ?_, ?_⟩
  · simp only [copilotGenerateJson, hs, Bind.bind, Except.bind]
    rfl
  · unfold copilotCore
    exact copilotFinish_spec (copilotParsed loads (copilotSnippet s)) (copilotSnippet s)

/-- Claim C7: invoking the design command with no page knowledge returns the
session state unchanged in every field and sends exactly the precondition
error event. -/
theorem handle_design_precondition {PK TC ME : Type} (st : AgentSt PK TC ME)
    (out : DesignOutcome TC ME) (h : st.page_knowledge = none) :
    handle_design st out = (st, [AEvent.error none "Must explore page first"]) := by
  unfold handle_design
  rw [h]

/-- Witness for Claim C7 on a fresh session. -/
theorem handle_design_precondition_witness :
    cexState.page_knowledge = none ∧
    handle_design cexState (DesignOutcome.ok () []) =
      (cexState, [AEvent.error none "Must explore page first"]) :=
  ⟨rfl, handle_design_precondition cexState (DesignOutcome.ok () []) rfl⟩

/-- Claim C8: after a reset from any session state — in particular any state
reached by a sequence of operations — the phase and every artifact field are
absent, the metrics iteration log is empty, and the browser reference is
released. -/
theorem agent_state_reset_clears {PK TC ME : Type} (st : AgentSt PK TC ME) :
    st.reset.current_phase = none ∧ st.reset.page_knowledge = none ∧
    st.reset.test_cases = none ∧ st.reset.generated_code = none ∧
    st.reset.metrics.iterations = [] ∧ st.reset.browser_manager = false :=
  ⟨rfl, rfl, rfl, rfl, rfl, rfl⟩

/-- Claim C9: the markdown-extraction branch of `LLMClient.generate_json`
splits either on the substring json or on the always-present empty string;
the empty-separator split raises ValueError, the surrounding handler catches
it, and so the parsed-value field is None for every response text and every
behaviour of the json parser. -/
theorem llm_generate_json_always_none {J : Type} (loads : List Char → Except PyErr J)
    (text : List Char) : llmGenerateJson loads text = none := by
  unfold llmGenerateJson
  have hnil : containsSub text [] = true := by
    cases text <;> rfl
  cases h : containsSub text jsonKw with
  | false =>
    simp [h, hnil, pySplitAll, Bind.bind, Except.bind]
  | true =>
    have hok : pySplitAll text jsonKw = .ok (splitAllFuel jsonKw text.length text) := rfl
    simp only [h, if_true, hok, Bind.bind, Except.bind]
    cases hg : listGet (splitAllFuel jsonKw text.length text) 1 with
    | error e => simp [hg]
    | ok p1 => simp [hg, pySplitAll, Except.bind]

/-- Claim C10: when the provider reports a usage of zero total tokens,
`LLMClient.generate` raises `NoTokensError` inside its own try block, the
except clause finds no quota pattern in that message, and the call returns
the error-text dict with zero tokens instead of escalating. -/
theorem llm_generate_zero_tokens_eval :
    llmGenerate (.ok "model output" (some 0)) =
      .returns ("Error: " ++ noTokensInternalMsg) 0 := by
  decide
